import Mathlib

/-!
Verification of the server utility layer (`src/server/server_utils.py`) of the
gitingest HTTP server: the periodic repository-retention sweeper, browser
detection and format negotiation, the rate-limit exception handler, and the
request-logging middleware.

Strings from the Python code are embedded as lists of characters so that
operations such as substring search, `pathlib` suffix/stem extraction and
`str.split` can be modelled character by character.  Python exceptions are
embedded with `Except`: a try-block body is a function into `Except PyExc α`,
and the corresponding `except` handler is an explicit match on the result.
-/

namespace Gitingest

/-- Python strings, embedded as lists of characters. -/
abbrev Str := List Char

/-- Characters of a Lean string literal, used to write concrete Python strings. -/
def chars (s : String) : Str := s.data

/-- Python exceptions that the embedded code can raise. -/
inductive PyExc where
  | indexError
  | ioError
  | osError
deriving DecidableEq

/-! ### `pathlib` name helpers

`Path.suffix` and `Path.stem` in CPython both locate the last `.` of the final
component (`name.rfind('.')`) and use it only when `0 < i < len(name) - 1`.
-/

/-- Index of the last occurrence of `c` in the list, like Python `rfind`. -/
def rfindIdx (c : Char) : Str → Option Nat
  | [] => none
  | x :: xs =>
    match rfindIdx c xs with
    | some i => some (i + 1)
    | none => if x == c then some 0 else none

/-- Embedding of `Path.suffix`: the extension of the name, including the dot, or empty. -/
def pathSuffix (name : Str) : Str :=
  match rfindIdx '.' name with
  | some i => if 0 < i ∧ i < name.length - 1 then name.drop i else []
  | none => []

/-- Embedding of `Path.stem`: the name with its suffix (if any) removed. -/
def pathStem (name : Str) : Str :=
  match rfindIdx '.' name with
  | some i => if 0 < i ∧ i < name.length - 1 then name.take i else name
  | none => name

/-! ### string helpers -/

/-- Whether the first list is a prefix of the second. -/
def strStarts : Str → Str → Bool
  | [], _ => true
  | _ :: _, [] => false
  | a :: as, b :: bs => a == b && strStarts as bs

/-- Python substring test `needle in hay`. -/
def strIn (needle hay : Str) : Bool :=
  if strStarts needle hay then true
  else
    match hay with
    | [] => false
    | _ :: t => strIn needle t

/-- Python `str.lower` (the code only ever lowercases ASCII user agents). -/
def lowerStr (s : Str) : Str := s.map Char.toLower

/-- Python `"-" in filename`. -/
def hasDash (s : Str) : Bool := s.any (fun c => c == '-')

/-- Python `filename.split("-", 1)` when a dash is present: the part before the
first dash and everything after it.  (When no dash is present Python would
return a one-element list and the destructuring assignment in the source would
raise; the source guards that case away, and this function is only applied
under that guard.) -/
def pySplit1Dash : Str → Str × Str
  | [] => ([], [])
  | c :: cs =>
    if c == '-' then ([], cs)
    else
      let p := pySplit1Dash cs
      (c :: p.1, p.2)

/-! ### `_process_folder` (server_utils.py lines 216-245)

```
try:
    txt_files = [f for f in folder.iterdir() if f.suffix == ".txt"]
    filename = txt_files[0].stem          # IndexError when no .txt file
    if txt_files and "-" in filename:
        owner, repo = filename.split("-", 1)
        repo_url = f"{owner}/{repo}"
        with open("history.txt", mode="a", ...) as history:
            history.write(f"{repo_url}\n")
except Exception as exc:
    print(...)
try:
    shutil.rmtree(folder)
except Exception as exc:
    print(...)
```

`writeOk` is an oracle for whether opening/writing `history.txt` succeeds, and
`rmtreeOk` for whether `shutil.rmtree` succeeds.  A history entry is the exact
string passed to `history.write` minus its terminating newline, i.e. one line
of `history.txt`.
-/

/-- Whether a directory entry name has the `.txt` marker extension. -/
def isTxt (f : Str) : Bool := pathSuffix f == chars ".txt"

/-- Body of the first try-block of `_process_folder`: list the `.txt` files,
index the first one (raising `IndexError` when there is none), then, under the
guard `if txt_files and "-" in filename`, split the stem on the first dash and
write `owner/repo` to the history file (raising on a failed write).  Returns
the line written, if any. -/
def logAttempt (files : List Str) (writeOk : Bool) : Except PyExc (Option Str) :=
  match files.filter isTxt with
  | [] => .error .indexError
  | t0 :: rest =>
    if (t0 :: rest).isEmpty then .ok none
    else if hasDash (pathStem t0) then
      if writeOk then
        .ok (some ((pySplit1Dash (pathStem t0)).1 ++ '/' :: (pySplit1Dash (pathStem t0)).2))
      else .error .ioError
    else .ok none

/-- The first try-block with its `except Exception` handler: a raised
exception is printed and swallowed, leaving no history line. -/
def loggedLine (files : List Str) (writeOk : Bool) : Option Str :=
  match logAttempt files writeOk with
  | .ok o => o
  | .error _ => none

/-- Body of the second try-block: `shutil.rmtree(folder)`. -/
def rmtreeAttempt (rmtreeOk : Bool) : Except PyExc Unit :=
  if rmtreeOk then .ok () else .error .osError

/-- The second try-block with its handler: whether the folder was deleted. -/
def deletedFlag (rmtreeOk : Bool) : Bool :=
  match rmtreeAttempt rmtreeOk with
  | .ok _ => true
  | .error _ => false

/-- The whole of `_process_folder`, as a fallible computation: both internal
try/except blocks are resolved inside, so the function itself never raises. -/
def processFolderRun (files : List Str) (writeOk rmtreeOk : Bool) :
    Except PyExc (Option Str × Bool) :=
  .ok (loggedLine files writeOk, deletedFlag rmtreeOk)

/-- Embedding of `_process_folder`: the history line written (if any) and whether the
folder was deleted. -/
def processFolder (files : List Str) (writeOk rmtreeOk : Bool) : Option Str × Bool :=
  match processFolderRun files writeOk rmtreeOk with
  | .ok r => r
  | .error _ => (none, false)

/-! ### `_remove_old_repositories` (server_utils.py lines 195-213) -/

/-- A temporary repository folder under `TMP_BASE_PATH`: its name, the names
of the files it contains in iteration order, its `st_ctime`, and oracles for
whether `folder.stat()` raises and whether `shutil.rmtree` succeeds. -/
structure Folder where
  name : Str
  files : List Str
  ctime : Int
  statFails : Bool
  rmtreeOk : Bool
deriving DecidableEq

/-- Result of the `for folder in TMP_BASE_PATH.iterdir()` loop of one scan:
the folders still on disk, the history lines, and the exception (if any) that
aborted the loop.  There is no per-folder try/except inside the loop, so a
`stat` failure propagates out of the loop, leaving later folders unvisited. -/
structure ScanResult where
  folders : List Folder
  hist : List Str
  err : Option PyExc
deriving DecidableEq

/-- The body of the scan loop: skip folders whose age `now - st_ctime` does
not exceed the threshold `th` (`DELETE_REPO_AFTER`), process the others. -/
def scanFolders (now th : Int) (writeOk : Bool) : List Folder → List Str → ScanResult
  | [], hist => ⟨[], hist, none⟩
  | f :: rest, hist =>
    if f.statFails then ⟨f :: rest, hist, some .osError⟩
    else if now - f.ctime ≤ th then
      let r := scanFolders now th writeOk rest hist
      ⟨f :: r.folders, r.hist, r.err⟩
    else
      let p := processFolder f.files writeOk f.rmtreeOk
      let hist2 := hist ++ p.1.toList
      let r := scanFolders now th writeOk rest hist2
      ⟨if p.2 then r.folders else f :: r.folders, r.hist, r.err⟩

/-- The state the sweeper acts on: whether `TMP_BASE_PATH` exists, whether
enumerating it raises, its folders, and the lines of `history.txt`. -/
structure World where
  baseExists : Bool
  enumFails : Bool
  folders : List Folder
  history : List Str
deriving DecidableEq

/-- One scan of the base path, as the body of the outer try-block: either the
enumeration raises at once, or the folder loop runs until it finishes or a
`stat` call raises.  The world reflects all mutations made before any abort. -/
def scanCycle (now th : Int) (writeOk : Bool) (w : World) : World × Option PyExc :=
  if w.enumFails then (w, some .osError)
  else
    let r := scanFolders now th writeOk w.folders w.history
    (⟨w.baseExists, w.enumFails, r.folders, r.hist⟩, r.err)

/-- The `except Exception` handler of the sweeper loop: whether the scan
cycle finished normally or raised, the exception (if any) is printed and
swallowed and the loop proceeds to `await asyncio.sleep(60)`. -/
def loopRecover (c : World × Option PyExc) : World × Nat :=
  match c.2 with
  | none => (c.1, 60)
  | some _ => (c.1, 60)

/-- One iteration of the `while True` loop of `_remove_old_repositories`:
if the base path does not exist, sleep 60 and continue; otherwise run a scan
cycle under `try`, print and swallow any exception, and sleep 60.  Returns the
resulting world and the number of seconds slept before the next iteration. -/
def loopStep (now th : Int) (writeOk : Bool) (w : World) : World × Nat :=
  if w.baseExists = false then (w, 60)
  else loopRecover (scanCycle now th writeOk w)

/-! ### `log_slider_to_size` (server_utils.py lines 248-265)

Not embedded: the function computes
`round(math.exp(minv + (maxv - minv) * pow(position / maxp, 1.5))) * 1024`
with IEEE-754 double arithmetic (`math.log`, `math.exp`, `pow`, `round`),
whose rounding behaviour is outside this embedding.
-/

/-! ### `is_browser` (server_utils.py lines 268-286) and format negotiation -/

/-- The fixed list of browser tokens from `is_browser`. -/
def browser_identifiers : List Str :=
  [chars "mozilla", chars "chrome", chars "safari", chars "edge",
   chars "firefox", chars "webkit", chars "opera"]

/-- Embedding of `is_browser`: lowercase the `User-Agent` header (an absent header is read
as `""` by `request.headers.get("user-agent", "")`) and test whether any
browser token occurs in it as a substring. -/
def is_browser (userAgentHeader : Option Str) : Bool :=
  let user_agent := lowerStr (userAgentHeader.getD [])
  browser_identifiers.any (fun ident => strIn ident user_agent)

/-- The three response representations the server can produce. -/
inductive RespShape where
  | html
  | text
  | json
deriving DecidableEq

/-- Modelled from the spec: the route handler that negotiates the response
format is not part of this excerpt (only its tests are).  Per spec section 4.4,
for a non-browser client an explicit `format` query value of `json` or `text`
wins outright; with no explicit `format`, an `Accept` header indicating
`application/json` selects JSON and anything else defaults to plain text. -/
def nonBrowserDecision (formatParam : Option Str) (acceptJson : Bool) : RespShape :=
  if formatParam = some (chars "json") then .json
  else if formatParam = some (chars "text") then .text
  else if acceptJson then .json
  else .text

/-- Modelled from the spec: the full format decision of the route handler.
Per spec section 4.4, a request whose user agent matches a browser token is
always answered with the HTML template page, regardless of the `format` query
parameter and the `Accept` header; otherwise `nonBrowserDecision` applies. -/
def formatDecision (userAgentHeader : Option Str) (formatParam : Option Str)
    (acceptJson : Bool) : RespShape :=
  if is_browser userAgentHeader then .html
  else nonBrowserDecision formatParam acceptJson

/-! ### `rate_limit_exception_handler` (server_utils.py lines 26-51) -/

/-- An HTTP response, reduced to the fields the embedded code inspects. -/
structure HttpResponse where
  status_code : Nat
  body : String
deriving DecidableEq

/-- Exceptions reaching the rate-limit handler: the slowapi
`RateLimitExceeded` or any other exception, tagged by an arbitrary code. -/
inductive ServerExc where
  | rateLimitExceeded
  | other (code : Nat)
deriving DecidableEq

/-- The response produced by slowapi's default `_rate_limit_exceeded_handler`:
a 429 "too many requests" response. -/
def tooManyRequestsResponse : HttpResponse :=
  ⟨429, "Rate limit exceeded"⟩

/-- Embedding of `rate_limit_exception_handler`: delegate a `RateLimitExceeded` instance to
the default handler, re-raise anything else. -/
def rate_limit_exception_handler (exc : ServerExc) : Except ServerExc HttpResponse :=
  match exc with
  | .rateLimitExceeded => .ok tooManyRequestsResponse
  | e => .error e

/-! ### `LoggingMiddleware.dispatch` (server_utils.py lines 99-148) -/

/-- An HTTP request, reduced to the fields the middleware reads. -/
structure HttpRequest where
  method : String
  path : String
  clientHost : Option String
deriving DecidableEq

/-- A row of the `api_logs` table. -/
structure LogRow where
  level : String
  message : String
  method : String
  path : String
  status_code : Nat
  ip_address : Option String
  processing_time : Int
deriving DecidableEq

/-- The log message
`f"{client_host} - \"{method} {path} HTTP/1.1\" {status_code}"`
(Python renders an absent client as `None`). -/
def mkMessage (host : Option String) (method path : String) (status : Nat) : String :=
  (match host with | some h => h | none => "None")
    ++ " - \"" ++ method ++ " " ++ path ++ " HTTP/1.1\" " ++ toString status

/-- The row `dispatch` inserts for a request/response pair, with
`processing_time = t1 - t0` the elapsed wall-clock time. -/
def mkRow (req : HttpRequest) (resp : HttpResponse) (t0 t1 : Int) : LogRow :=
  ⟨"INFO", mkMessage req.clientHost req.method req.path resp.status_code,
   req.method, req.path, resp.status_code, req.clientHost, t1 - t0⟩

/-- The try-block of `dispatch`: connect and insert the row, raising when the
database is unavailable (`dbOk = false`). -/
def insertLog (dbOk : Bool) (row : LogRow) : Except PyExc LogRow :=
  if dbOk then .ok row else .error .ioError

/-- Embedding of `LoggingMiddleware.dispatch`: call the downstream handler, build the log
row, attempt the insert under `try` (printing and swallowing any failure), and
return the downstream response.  The second component is the row actually
persisted, if any. -/
def dispatch (dbOk : Bool) (t0 t1 : Int) (call_next : HttpRequest → HttpResponse)
    (request : HttpRequest) : HttpResponse × Option LogRow :=
  let response := call_next request
  match insertLog dbOk (mkRow request response t0 t1) with
  | .ok row => (response, some row)
  | .error _ => (response, none)

/-! ## Helper lemmas -/

/-- Splitting on the first dash of a decomposed string recovers the parts. -/
theorem pySplit1Dash_decomp (a b : Str) (ha : ∀ c ∈ a, c ≠ '-') :
    pySplit1Dash (a ++ '-' :: b) = (a, b) := by
  induction a with
  | nil => simp [pySplit1Dash]
  | cons c cs ih =>
    have hc : c ≠ '-' := ha c (List.mem_cons_self c cs)
    have h2 : pySplit1Dash (cs ++ '-' :: b) = (cs, b) :=
      ih (fun x hx => ha x (List.mem_cons_of_mem c hx))
    simp [pySplit1Dash, hc, h2]

/-- A string with an explicit dash in it passes the dash test. -/
theorem hasDash_decomp (a b : Str) : hasDash (a ++ '-' :: b) = true := by
  simp [hasDash, List.any_append]

/-- When the folder has a first `.txt` file whose stem decomposes around its
first dash, the logging try-block succeeds and yields the `owner/repo` line. -/
theorem logAttempt_marker (files : List Str) (m : Str) (mrest : List Str) (a b : Str)
    (hfilter : files.filter isTxt = m :: mrest)
    (hstem : pathStem m = a ++ '-' :: b)
    (ha : ∀ c ∈ a, c ≠ '-') :
    logAttempt files true = .ok (some (a ++ '/' :: b)) := by
  unfold logAttempt
  rw [hfilter]
  simp [hstem, hasDash_decomp, pySplit1Dash_decomp a b ha]

/-- The caught version of `logAttempt_marker`. -/
theorem loggedLine_marker (files : List Str) (m : Str) (mrest : List Str) (a b : Str)
    (hfilter : files.filter isTxt = m :: mrest)
    (hstem : pathStem m = a ++ '-' :: b)
    (ha : ∀ c ∈ a, c ≠ '-') :
    loggedLine files true = some (a ++ '/' :: b) := by
  unfold loggedLine
  rw [logAttempt_marker files m mrest a b hfilter hstem ha]

/-- Unfolding `processFolder`: it splits into the caught logging step and the caught
deletion step. -/
theorem processFolder_eq (files : List Str) (writeOk rmtreeOk : Bool) :
    processFolder files writeOk rmtreeOk = (loggedLine files writeOk, deletedFlag rmtreeOk) := rfl

/-- The deletion flag is exactly the `rmtree` oracle. -/
theorem deletedFlag_eq (rmtreeOk : Bool) : deletedFlag rmtreeOk = rmtreeOk := by
  cases rmtreeOk <;> rfl

/-- Unfolding a scan at a folder whose `stat` raises: the loop aborts. -/
theorem scanFolders_cons_stat (now th : Int) (writeOk : Bool) (f : Folder)
    (rest : List Folder) (hist : List Str) (hs : f.statFails = true) :
    scanFolders now th writeOk (f :: rest) hist = ⟨f :: rest, hist, some .osError⟩ := by
  simp [scanFolders, hs]

/-- Unfolding a scan at a folder whose age does not exceed the threshold:
the folder is kept untouched and the loop continues. -/
theorem scanFolders_cons_young (now th : Int) (writeOk : Bool) (f : Folder)
    (rest : List Folder) (hist : List Str)
    (hs : f.statFails = false) (hy : now - f.ctime ≤ th) :
    scanFolders now th writeOk (f :: rest) hist =
      ⟨f :: (scanFolders now th writeOk rest hist).folders,
       (scanFolders now th writeOk rest hist).hist,
       (scanFolders now th writeOk rest hist).err⟩ := by
  simp [scanFolders, hs, hy]

/-- Unfolding a scan at a folder past the threshold: the folder is processed
(history possibly extended, folder kept only when deletion fails) and the
loop continues. -/
theorem scanFolders_cons_old (now th : Int) (writeOk : Bool) (f : Folder)
    (rest : List Folder) (hist : List Str)
    (hs : f.statFails = false) (hy : ¬ now - f.ctime ≤ th) :
    scanFolders now th writeOk (f :: rest) hist =
      ⟨if f.rmtreeOk
         then (scanFolders now th writeOk rest (hist ++ (loggedLine f.files writeOk).toList)).folders
         else f :: (scanFolders now th writeOk rest
                      (hist ++ (loggedLine f.files writeOk).toList)).folders,
       (scanFolders now th writeOk rest (hist ++ (loggedLine f.files writeOk).toList)).hist,
       (scanFolders now th writeOk rest (hist ++ (loggedLine f.files writeOk).toList)).err⟩ := by
  simp [scanFolders, hs, hy, processFolder_eq, deletedFlag_eq]

/-- History lines are never removed by a scan. -/
theorem scanFolders_hist_mono (now th : Int) (writeOk : Bool) :
    ∀ (fl : List Folder) (hist : List Str) (l : Str), l ∈ hist →
      l ∈ (scanFolders now th writeOk fl hist).hist := by
  intro fl
  induction fl with
  | nil => intro hist l hl; simpa [scanFolders] using hl
  | cons f rest ih =>
    intro hist l hl
    by_cases hs : f.statFails = true
    · rw [scanFolders_cons_stat now th writeOk f rest hist hs]
      exact hl
    · rw [Bool.not_eq_true] at hs
      by_cases hy : now - f.ctime ≤ th
      · rw [scanFolders_cons_young now th writeOk f rest hist hs hy]
        exact ih hist l hl
      · rw [scanFolders_cons_old now th writeOk f rest hist hs hy]
        exact ih _ l (List.mem_append_left _ hl)

/-- A scan never invents folders: the survivors come from the input list. -/
theorem scanFolders_folders_sub (now th : Int) (writeOk : Bool) :
    ∀ (fl : List Folder) (hist : List Str) (g : Folder),
      g ∈ (scanFolders now th writeOk fl hist).folders → g ∈ fl := by
  intro fl
  induction fl with
  | nil => intro hist g hg; simp [scanFolders] at hg
  | cons f rest ih =>
    intro hist g hg
    by_cases hs : f.statFails = true
    · rw [scanFolders_cons_stat now th writeOk f rest hist hs] at hg
      exact hg
    · rw [Bool.not_eq_true] at hs
      by_cases hy : now - f.ctime ≤ th
      · rw [scanFolders_cons_young now th writeOk f rest hist hs hy] at hg
        rcases List.mem_cons.mp hg with h | h
        · exact h ▸ List.mem_cons_self f rest
        · exact List.mem_cons_of_mem f (ih _ g h)
      · rw [scanFolders_cons_old now th writeOk f rest hist hs hy] at hg
        by_cases hr : f.rmtreeOk = true
        · rw [if_pos hr] at hg
          exact List.mem_cons_of_mem f (ih _ g hg)
        · rw [if_neg hr] at hg
          rcases List.mem_cons.mp hg with h | h
          · exact h ▸ List.mem_cons_self f rest
          · exact List.mem_cons_of_mem f (ih _ g h)

/-- A folder whose age does not exceed the threshold survives the scan
untouched, whatever happens to the other folders. -/
theorem scanFolders_young_kept (now th : Int) (writeOk : Bool) :
    ∀ (fl : List Folder) (hist : List Str) (g : Folder), g ∈ fl →
      now - g.ctime ≤ th → g ∈ (scanFolders now th writeOk fl hist).folders := by
  intro fl
  induction fl with
  | nil => intro hist g hg _; simp at hg
  | cons f rest ih =>
    intro hist g hg hgy
    by_cases hs : f.statFails = true
    · rw [scanFolders_cons_stat now th writeOk f rest hist hs]
      exact hg
    · rw [Bool.not_eq_true] at hs
      rcases List.mem_cons.mp hg with hgf | hgr
      · subst hgf
        rw [scanFolders_cons_young now th writeOk g rest hist hs hgy]
        exact List.mem_cons_self g _
      · by_cases hy : now - f.ctime ≤ th
        · rw [scanFolders_cons_young now th writeOk f rest hist hs hy]
          exact List.mem_cons_of_mem f (ih hist g hgr hgy)
        · rw [scanFolders_cons_old now th writeOk f rest hist hs hy]
          by_cases hr : f.rmtreeOk = true
          · rw [if_pos hr]
            exact ih _ g hgr hgy
          · rw [if_neg hr]
            exact List.mem_cons_of_mem f (ih _ g hgr hgy)

/-- When no `stat` call fails, a folder past the threshold whose deletion
succeeds is gone after the scan. -/
theorem scanFolders_old_deleted (now th : Int) (writeOk : Bool) :
    ∀ (fl : List Folder) (hist : List Str) (f : Folder),
      (∀ g ∈ fl, g.statFails = false) → f ∈ fl → ¬ now - f.ctime ≤ th →
      f.rmtreeOk = true → f ∉ (scanFolders now th writeOk fl hist).folders := by
  intro fl
  induction fl with
  | nil => intro hist f _ hf _ _; simp at hf
  | cons g rest ih =>
    intro hist f hstat hf hfy hfr
    have hgs : g.statFails = false := hstat g (List.mem_cons_self g rest)
    have hstat2 : ∀ x ∈ rest, x.statFails = false :=
      fun x hx => hstat x (List.mem_cons_of_mem g hx)
    by_cases hgf : g = f
    · subst hgf
      rw [scanFolders_cons_old now th writeOk g rest hist hgs hfy, if_pos hfr]
      by_cases hgr : g ∈ rest
      · exact ih _ g hstat2 hgr hfy hfr
      · intro hmem
        exact hgr (scanFolders_folders_sub now th writeOk rest _ g hmem)
    · have hfr2 : f ∈ rest := by
        rcases List.mem_cons.mp hf with h | h
        · exact absurd h.symm hgf
        · exact h
      by_cases hy : now - g.ctime ≤ th
      · rw [scanFolders_cons_young now th writeOk g rest hist hgs hy]
        intro hmem
        rcases List.mem_cons.mp hmem with h | h
        · exact hgf h.symm
        · exact ih hist f hstat2 hfr2 hfy hfr h
      · rw [scanFolders_cons_old now th writeOk g rest hist hgs hy]
        by_cases hr : g.rmtreeOk = true
        · rw [if_pos hr]
          exact ih _ f hstat2 hfr2 hfy hfr
        · rw [if_neg hr]
          intro hmem
          rcases List.mem_cons.mp hmem with h | h
          · exact hgf h.symm
          · exact ih _ f hstat2 hfr2 hfy hfr h

/-- When no `stat` call fails, processing a folder past the threshold whose
marker stem splits on a dash leaves the `owner/repo` line in the history. -/
theorem scanFolders_logs (now th : Int) :
    ∀ (fl : List Folder) (hist : List Str) (f : Folder) (m : Str) (mrest : List Str)
      (a b : Str),
      (∀ g ∈ fl, g.statFails = false) → f ∈ fl → ¬ now - f.ctime ≤ th →
      f.files.filter isTxt = m :: mrest → pathStem m = a ++ '-' :: b →
      (∀ c ∈ a, c ≠ '-') →
      (a ++ '/' :: b) ∈ (scanFolders now th true fl hist).hist := by
  intro fl
  induction fl with
  | nil => intro hist f m mrest a b _ hf _ _ _ _; simp at hf
  | cons g rest ih =>
    intro hist f m mrest a b hstat hf hfy hfilter hstem ha
    have hgs : g.statFails = false := hstat g (List.mem_cons_self g rest)
    have hstat2 : ∀ x ∈ rest, x.statFails = false :=
      fun x hx => hstat x (List.mem_cons_of_mem g hx)
    by_cases hgf : g = f
    · subst hgf
      rw [scanFolders_cons_old now th true g rest hist hgs hfy]
      have hline : loggedLine g.files true = some (a ++ '/' :: b) :=
        loggedLine_marker g.files m mrest a b hfilter hstem ha
      apply scanFolders_hist_mono now th true rest _ _
      rw [hline]
      exact List.mem_append_right hist (List.mem_singleton.mpr rfl)
    · have hfr2 : f ∈ rest := by
        rcases List.mem_cons.mp hf with h | h
        · exact absurd h.symm hgf
        · exact h
      by_cases hy : now - g.ctime ≤ th
      · rw [scanFolders_cons_young now th true g rest hist hgs hy]
        exact ih hist f m mrest a b hstat2 hfr2 hfy hfilter hstem ha
      · rw [scanFolders_cons_old now th true g rest hist hgs hy]
        exact ih _ f m mrest a b hstat2 hfr2 hfy hfilter hstem ha

/-- The loop handler always ends the iteration with a 60 second sleep. -/
theorem loopRecover_eq (c : World × Option PyExc) : loopRecover c = (c.1, 60) := by
  unfold loopRecover
  cases c.2 <;> rfl

/-! ## Claim theorems -/

/-- C1: in one sweep cycle, every folder whose age exceeds the retention
threshold and whose iteration-first `.txt` marker stem contains a `-` gets a
single history line — the stem with its first `-` replaced by `/` — appended,
and the folder is deleted; a folder whose age does not exceed the threshold is
left untouched by that sweep. -/
theorem sweep_old_folder_logged_and_removed
    (now th : Int) (folders : List Folder) (hist : List Str)
    (f : Folder) (m : Str) (mrest : List Str) (a b : Str)
    (hstat : ∀ g ∈ folders, g.statFails = false)
    (hmem : f ∈ folders)
    (hold : ¬ now - f.ctime ≤ th)
    (hfilter : f.files.filter isTxt = m :: mrest)
    (hstem : pathStem m = a ++ '-' :: b)
    (ha : ∀ c ∈ a, c ≠ '-')
    (hrm : f.rmtreeOk = true) :
    loggedLine f.files true = some (a ++ '/' :: b)
    ∧ (a ++ '/' :: b) ∈ (scanFolders now th true folders hist).hist
    ∧ f ∉ (scanFolders now th true folders hist).folders
    ∧ ∀ g ∈ folders, now - g.ctime ≤ th →
        g ∈ (scanFolders now th true folders hist).folders :=
  ⟨loggedLine_marker f.files m mrest a b hfilter hstem ha,
   scanFolders_logs now th folders hist f m mrest a b hstat hmem hold hfilter hstem ha,
   scanFolders_old_deleted now th true folders hist f hstat hmem hold hrm,
   fun g hg hgy => scanFolders_young_kept now th true folders hist g hg hgy⟩

/-- C1 witness: a sweep over one 100-second-old folder (threshold 10) holding
the marker `acme-widgets.txt` appends the line `acme/widgets` and deletes the
folder. -/
theorem sweep_old_folder_logged_and_removed_witness :
    loggedLine [chars "acme-widgets.txt"] true = some (chars "acme" ++ '/' :: chars "widgets")
    ∧ (chars "acme" ++ '/' :: chars "widgets") ∈
        (scanFolders 100 10 true [⟨chars "d", [chars "acme-widgets.txt"], 0, false, true⟩] []).hist
    ∧ (⟨chars "d", [chars "acme-widgets.txt"], 0, false, true⟩ : Folder) ∉
        (scanFolders 100 10 true [⟨chars "d", [chars "acme-widgets.txt"], 0, false, true⟩] []).folders
    ∧ ∀ g ∈ [(⟨chars "d", [chars "acme-widgets.txt"], 0, false, true⟩ : Folder)],
        (100 : Int) - g.ctime ≤ 10 →
        g ∈ (scanFolders 100 10 true
              [⟨chars "d", [chars "acme-widgets.txt"], 0, false, true⟩] []).folders :=
  sweep_old_folder_logged_and_removed 100 10
    [⟨chars "d", [chars "acme-widgets.txt"], 0, false, true⟩] []
    ⟨chars "d", [chars "acme-widgets.txt"], 0, false, true⟩
    (chars "acme-widgets.txt") [] (chars "acme") (chars "widgets")
    (by decide) (by decide) (by decide) (by decide) (by decide) (by decide) (by decide)

/-- C6: in `_process_folder`, a failure of identifier extraction or of the
history append never prevents the deletion attempt, no exception escapes, and
a folder with no `.txt` marker, or with a dash-free marker stem, is processed
with no history line written. -/
theorem process_folder_deletion_isolated (files : List Str) (writeOk rmtreeOk : Bool) :
    processFolderRun files writeOk rmtreeOk = .ok (processFolder files writeOk rmtreeOk)
    ∧ (processFolder files writeOk rmtreeOk).2 = rmtreeOk
    ∧ ((∀ f ∈ files, isTxt f = false) →
        processFolder files writeOk rmtreeOk = (none, rmtreeOk))
    ∧ (∀ m mrest, files.filter isTxt = m :: mrest → hasDash (pathStem m) = false →
        processFolder files writeOk rmtreeOk = (none, rmtreeOk)) := by
  refine ⟨rfl, by rw [processFolder_eq]; exact deletedFlag_eq rmtreeOk, ?_, ?_⟩
  · intro h
    have hfil : files.filter isTxt = [] := by
      rw [List.filter_eq_nil_iff]
      intro x hx
      simp [h x hx]
    rw [processFolder_eq, deletedFlag_eq]
    unfold loggedLine logAttempt
    rw [hfil]
  · intro m mrest hfil hnd
    rw [processFolder_eq, deletedFlag_eq]
    unfold loggedLine logAttempt
    rw [hfil]
    simp [hnd]

/-- C6 witness: a folder with only `README.md` (no marker) and a folder with
the dash-free marker `archive.txt` are both deleted with no history line. -/
theorem process_folder_deletion_isolated_witness :
    ((∀ f ∈ [chars "README.md"], isTxt f = false)
      ∧ processFolder [chars "README.md"] true true = (none, true))
    ∧ (hasDash (pathStem (chars "archive.txt")) = false
      ∧ processFolder [chars "archive.txt"] true true = (none, true)) := by
  refine ⟨⟨by decide, ?_⟩, by decide, ?_⟩
  · exact (process_folder_deletion_isolated [chars "README.md"] true true).2.2.1 (by decide)
  · exact (process_folder_deletion_isolated [chars "archive.txt"] true true).2.2.2
      (chars "archive.txt") [] (by decide) (by decide)

/-- C10: `txt_files[0].stem` is evaluated before the `if txt_files` guard, so
a folder with no `.txt` file always leaves the logging try-block through the
caught `IndexError`, never through a normal exit, and the deletion step still
executes. -/
theorem no_marker_index_error_path (files : List Str) (writeOk rmtreeOk : Bool)
    (h : ∀ f ∈ files, isTxt f = false) :
    logAttempt files writeOk = .error .indexError
    ∧ (∀ o : Option Str, logAttempt files writeOk ≠ .ok o)
    ∧ (processFolder files writeOk rmtreeOk).2 = rmtreeOk := by
  have hfil : files.filter isTxt = [] := by
    rw [List.filter_eq_nil_iff]
    intro x hx
    simp [h x hx]
  have h1 : logAttempt files writeOk = .error .indexError := by
    unfold logAttempt
    rw [hfil]
  refine ⟨h1, fun o hc => ?_, by rw [processFolder_eq]; exact deletedFlag_eq rmtreeOk⟩
  rw [h1] at hc
  exact Except.noConfusion hc

/-- C10 witness: a folder holding only `notes.md` exits extraction through the
index error and its deletion is still attempted. -/
theorem no_marker_index_error_path_witness :
    (∀ f ∈ [chars "notes.md"], isTxt f = false)
    ∧ logAttempt [chars "notes.md"] true = .error .indexError
    ∧ (processFolder [chars "notes.md"] true true).2 = true := by
  refine ⟨by decide, ?_, ?_⟩
  · exact (no_marker_index_error_path [chars "notes.md"] true true (by decide)).1
  · exact (no_marker_index_error_path [chars "notes.md"] true true (by decide)).2.2

/-- C7: the sweeper loop never terminates on an error — every exception of a
scan cycle is caught at the loop level — and after every iteration, whether
the cycle succeeded, was skipped because the base directory does not exist, or
was aborted by an error, the sweeper sleeps the fixed 60 second interval. -/
theorem sweeper_loop_always_sleeps (now th : Int) (writeOk : Bool) (w : World) :
    (loopStep now th writeOk w).2 = 60
    ∧ (w.baseExists = false → loopStep now th writeOk w = (w, 60))
    ∧ (∀ e : PyExc, w.baseExists = true → (scanCycle now th writeOk w).2 = some e →
        loopStep now th writeOk w = ((scanCycle now th writeOk w).1, 60)) := by
  refine ⟨?_, ?_, ?_⟩
  · unfold loopStep
    by_cases hb : w.baseExists = false
    · rw [if_pos hb]
    · rw [if_neg hb, loopRecover_eq]
  · intro hb
    unfold loopStep
    rw [if_pos hb]
  · intro e hb _
    unfold loopStep
    rw [if_neg (by simp [hb]), loopRecover_eq]

/-- C7 witness: a world whose base-directory enumeration raises is recovered
unchanged and the loop sleeps 60 seconds. -/
theorem sweeper_loop_always_sleeps_witness :
    (scanCycle 100 10 true ⟨true, true, [], []⟩).2 = some PyExc.osError
    ∧ loopStep 100 10 true ⟨true, true, [], []⟩ =
        ((scanCycle 100 10 true ⟨true, true, [], []⟩).1, 60) := by
  refine ⟨by decide, ?_⟩
  exact (sweeper_loop_always_sleeps 100 10 true ⟨true, true, [], []⟩).2.2
    PyExc.osError (by decide) (by decide)

/-- C3: a `User-Agent` containing any of the fixed browser tokens
(case-insensitively) makes `is_browser` return true and forces the HTML
template page regardless of the `format` parameter and the `Accept` header;
a `User-Agent` containing none of them makes `is_browser` return false. -/
theorem browser_ua_forces_html (ua : Option Str) (fmt : Option Str) (acceptJson : Bool) :
    (is_browser ua = true ↔
      ∃ t ∈ browser_identifiers, strIn t (lowerStr (ua.getD [])) = true)
    ∧ (is_browser ua = true → formatDecision ua fmt acceptJson = RespShape.html) := by
  constructor
  · simp [is_browser, List.any_eq_true]
  · intro h
    simp [formatDecision, h]

/-- C3 witness: a Mozilla user agent is classified as a browser and receives
HTML even with `format=json`. -/
theorem browser_ua_forces_html_witness :
    (∃ t ∈ browser_identifiers,
      strIn t (lowerStr ((some (chars "Mozilla/5.0")).getD [])) = true)
    ∧ formatDecision (some (chars "Mozilla/5.0")) (some (chars "json")) false
        = RespShape.html := by
  refine ⟨?_, ?_⟩
  · exact (browser_ua_forces_html (some (chars "Mozilla/5.0"))
      (some (chars "json")) false).1.mp (by decide)
  · exact (browser_ua_forces_html (some (chars "Mozilla/5.0"))
      (some (chars "json")) false).2 (by decide)

/-- C4: for a non-browser client, an explicit `format=json` wins over the
`Accept` header — the response is JSON whatever the header asked for. -/
theorem format_json_overrides_accept (ua : Option Str) (acceptJson : Bool)
    (h : is_browser ua = false) :
    formatDecision ua (some (chars "json")) acceptJson = RespShape.json := by
  simp [formatDecision, h, nonBrowserDecision]

/-- C4 witness: a curl client with `Accept: text/plain` (so `acceptJson` is
false) and `format=json` gets JSON. -/
theorem format_json_overrides_accept_witness :
    is_browser (some (chars "curl/7.68.0")) = false
    ∧ formatDecision (some (chars "curl/7.68.0")) (some (chars "json")) false
        = RespShape.json :=
  ⟨by decide, format_json_overrides_accept (some (chars "curl/7.68.0")) false (by decide)⟩

/-- C5: the rate-limit handler returns the standard too-many-requests response
exactly when the exception is a `RateLimitExceeded`, and re-raises every other
exception unchanged. -/
theorem rate_limit_handler_behaviour (exc : ServerExc) :
    (rate_limit_exception_handler exc = .ok tooManyRequestsResponse
      ↔ exc = .rateLimitExceeded)
    ∧ (exc ≠ .rateLimitExceeded → rate_limit_exception_handler exc = .error exc) := by
  cases exc with
  | rateLimitExceeded => exact ⟨⟨fun _ => rfl, fun _ => rfl⟩, fun h => absurd rfl h⟩
  | other n =>
    refine ⟨⟨fun h => Except.noConfusion h, fun h => ServerExc.noConfusion h⟩, fun _ => rfl⟩

/-- C5 witness: an unrelated exception is re-raised unchanged while a
`RateLimitExceeded` is turned into the 429 response. -/
theorem rate_limit_handler_behaviour_witness :
    (ServerExc.other 7 ≠ ServerExc.rateLimitExceeded)
    ∧ rate_limit_exception_handler (ServerExc.other 7) = .error (ServerExc.other 7)
    ∧ rate_limit_exception_handler ServerExc.rateLimitExceeded
        = .ok tooManyRequestsResponse := by
  refine ⟨by decide, ?_, ?_⟩
  · exact (rate_limit_handler_behaviour (ServerExc.other 7)).2 (by decide)
  · exact (rate_limit_handler_behaviour ServerExc.rateLimitExceeded).1.mpr rfl

/-- C8: `LoggingMiddleware.dispatch` returns exactly the downstream handler's
response, unaltered, whether the database insert succeeds or fails; a failed
insert merely loses the log row. -/
theorem dispatch_passthrough (dbOk : Bool) (t0 t1 : Int)
    (call_next : HttpRequest → HttpResponse) (request : HttpRequest) :
    (dispatch dbOk t0 t1 call_next request).1 = call_next request
    ∧ (dispatch false t0 t1 call_next request).2 = none
    ∧ (dispatch true t0 t1 call_next request).2 =
        some (mkRow request (call_next request) t0 t1) := by
  refine ⟨?_, rfl, rfl⟩
  cases dbOk <;> rfl

/-- C9: a request with no `User-Agent` header at all is read as the empty
string, is not classified as a browser, and is negotiated exactly like any
other non-browser client. -/
theorem missing_user_agent_non_browser :
    is_browser none = false
    ∧ ∀ (fmt : Option Str) (acceptJson : Bool),
        formatDecision none fmt acceptJson = nonBrowserDecision fmt acceptJson := by
  refine ⟨by decide, fun fmt acceptJson => ?_⟩
  simp [formatDecision, show is_browser none = false from by decide]

end Gitingest
